import Mathlib

/-!
Shallow embedding of the rule-compliance evaluation pipeline of `src/app.py`:
the verdict requester `analyze_rule_compliance` and the verdict parser
`parse_result`.  Python strings are modelled as `List Char`; Python's
`str.strip()` is modelled for the ASCII whitespace characters
(non-ASCII Unicode whitespace is not modelled), and `str.upper()` via
`Char.toUpper`, which uppercases exactly the ASCII letters.
The text-generation backend is modelled as an oracle mapping the call
index (one backend call per rule, in order) and the prompt to either a
reply or an error description, mirroring the `try/except` around
`llm.invoke` in the source.
-/

namespace AIReview

/-- The ASCII whitespace characters stripped by Python's `str.strip()`. -/
def isPySpace (c : Char) : Bool :=
  c = ' ' || c = '\t' || c = '\n' || c = '\r' || c = '\x0b' || c = '\x0c'

/-- Python `s.strip()`: remove leading and trailing whitespace. -/
def pyStrip (l : List Char) : List Char :=
  ((l.dropWhile isPySpace).reverse.dropWhile isPySpace).reverse

/-- Python `s.upper()` (ASCII letters). -/
def pyUpper (l : List Char) : List Char := l.map Char.toUpper

/-- Python `s.split('\n')`: split on every newline, keeping empty pieces. -/
def splitLines : List Char → List (List Char)
  | [] => [[]]
  | c :: cs =>
    if c = '\n' then [] :: splitLines cs
    else
      match splitLines cs with
      | [] => [[c]]
      | l :: ls => (c :: l) :: ls

/-- Python's substring test `needle in hay` for strings. -/
def containsSub (needle : List Char) : List Char → Bool
  | [] => needle.isEmpty
  | c :: cs => needle.isPrefixOf (c :: cs) || containsSub needle cs

/-- The accepted STATUS marker spellings (`line.upper().startswith(...)`),
from `parse_result` in `src/app.py`. -/
def statusMarkers : List (List Char) :=
  ["STATUS:".data, "STATUS ".data, "**STATUS".data]

/-- The accepted CONTENT marker spellings, from `parse_result`. -/
def contentMarkers : List (List Char) :=
  ["CONTENT:".data, "CONTENT ".data, "**CONTENT".data]

/-- `any(line.upper().startswith(p) for p in ["STATUS:", "STATUS ", "**STATUS"])`. -/
def isStatusLine (line : List Char) : Bool :=
  statusMarkers.any (fun p => p.isPrefixOf (pyUpper line))

/-- `any(line.upper().startswith(p) for p in ["CONTENT:", "CONTENT ", "**CONTENT"])`. -/
def isContentLine (line : List Char) : Bool :=
  contentMarkers.any (fun p => p.isPrefixOf (pyUpper line))

/-- The four normalized statuses of the verdict parser. -/
inductive Status
  | MET
  | NOT_MET
  | NOT_FOUND
  | ERROR
deriving DecidableEq, Repr

/-- The `if "NOT_MET" in line_upper: ... elif "NOT_FOUND" ... elif "MET" ...`
chain run on a STATUS-marked line (`src/app.py`, lines 116-122); with no
`else`, an unmatched line leaves the status unchanged. -/
def lineStatusUpdate (line : List Char) (status : Status) : Status :=
  let u := pyUpper line
  if containsSub "NOT_MET".data u then .NOT_MET
  else if containsSub "NOT_FOUND".data u then .NOT_FOUND
  else if containsSub "MET".data u then .MET
  else status

/-- Everything after the first `':'`, if any. -/
def afterFirstColon : List Char → Option (List Char)
  | [] => none
  | c :: cs => if c = ':' then some cs else afterFirstColon cs

/-- Python `line.split(":", 1)[-1]`: the part after the first colon, or the
whole line when it has no colon. -/
def splitColonLast (line : List Char) : List Char :=
  (afterFirstColon line).getD line

/-- The initial content sentinel `"Unable to parse result"`. -/
def unableMsg : List Char := "Unable to parse result".data

/-- The `for line in lines:` loop of `parse_result`, threading the mutable
`status` and `content` variables. -/
def scanLines : List (List Char) → Status × List Char → Status × List Char
  | [], acc => acc
  | l :: ls, (st, ct) =>
    let line := pyStrip l
    if isStatusLine line then scanLines ls (lineStatusUpdate line st, ct)
    else if isContentLine line then scanLines ls (st, pyStrip (splitColonLast line))
    else scanLines ls (st, ct)

/-- The parsed verdict: the dict `{"status": ..., "content": ...}`. -/
structure Verdict where
  status : Status
  content : List Char
deriving DecidableEq, Repr

/-- The whole-text status fallback (`src/app.py`, lines 128-135): search the
entire (stripped) reply for `NOT_MET`, then `NOT_FOUND`, then `MET`. -/
def wholeTextStatus (r : List Char) : Status :=
  let u := pyUpper r
  if containsSub "NOT_MET".data u then .NOT_MET
  else if containsSub "NOT_FOUND".data u then .NOT_FOUND
  else if containsSub "MET".data u then .MET
  else .ERROR

/-- `parse_result` from `src/app.py`: strip the reply, scan its lines for
STATUS/CONTENT markers, then apply the whole-text status fallback when the
status is still `ERROR` and the whole-text content fallback when the content
is still the sentinel. -/
def parse_result (result : List Char) : Verdict :=
  let r := pyStrip result
  let lines := splitLines r
  let sc := scanLines lines (.ERROR, unableMsg)
  let status := if sc.1 = .ERROR then wholeTextStatus r else sc.1
  let content := if sc.2 = unableMsg then r else sc.2
  ⟨status, content⟩

/-- The `ReviewState` TypedDict; the `results` dict is modelled as an
insertion-ordered association list. -/
structure ReviewState where
  text : List Char
  rules : List (List Char)
  results : List (List Char × List Char)
  analysis_complete : Bool
deriving DecidableEq, Repr

/-- The f-string prompt of `analyze_rule_compliance`, with its literal
indentation. -/
def buildPrompt (rule text : List Char) : List Char :=
  "\n        Analyze the following text against this rule:\n        Rule: ".data
    ++ rule
    ++ "\n        Text: ".data
    ++ text
    ++ "\n        \n        Determine if the rule is:\n        1. MET - The text clearly follows the rule\n        2. NOT_MET - The text violates the rule (provide the violating content)\n        3. NOT_FOUND - The rule cannot be evaluated from the given text (suggest what content should be added)\n        \n        Respond in this exact format:\n        STATUS: [MET/NOT_MET/NOT_FOUND]\n        CONTENT: [relevant content or suggestion]\n        ".data

/-- The result key `f"rule_{i+1}"` for the rule at 0-based index `i`. -/
def ruleKey (i : Nat) : List Char := "rule_".data ++ (toString (i + 1)).data

/-- On success the raw reply is the backend's response; on failure it is the
synthesized `f"ERROR: {str(e)}"`. -/
def mkReply : Except (List Char) (List Char) → List Char
  | .ok r => r
  | .error e => "ERROR: ".data ++ e

/-- The `for i, rule in enumerate(rules):` loop: one backend call per rule,
in order, each failure isolated to its own entry. -/
def evalRules (backend : Nat → List Char → Except (List Char) (List Char))
    (text : List Char) : Nat → List (List Char) → List (List Char × List Char)
  | _, [] => []
  | i, rule :: rest =>
    (ruleKey i, mkReply (backend i (buildPrompt rule text)))
      :: evalRules backend text (i + 1) rest

/-- `analyze_rule_compliance` from `src/app.py`.  `apiKey` is the value
returned by `load_api_key` (`none` models Python's `None`); the guard
`if not api_key` is Python truthiness, false exactly for a nonempty
string. -/
def analyze_rule_compliance (apiKey : Option (List Char))
    (backend : Nat → List Char → Except (List Char) (List Char))
    (state : ReviewState) : ReviewState :=
  if (apiKey.getD []).isEmpty then
    { state with
        results := [("error".data, "API key not available".data)]
        analysis_complete := true }
  else
    { state with
        results := evalRules backend state.text 0 state.rules
        analysis_complete := true }

/-- The status established by the line scan alone (before any fallback). -/
def lineScanStatus (r : List Char) : Status :=
  (scanLines (splitLines (pyStrip r)) (.ERROR, unableMsg)).1

/-! ### Helper lemmas -/

theorem containsSub_iff (n : List Char) : ∀ h : List Char, containsSub n h = true ↔ n <:+: h
  | [] => by
    simp only [containsSub, List.isEmpty_iff]
    constructor
    · intro h; simp [h]
    · intro h; exact List.sublist_nil.mp h.sublist
  | c :: cs => by
    simp only [containsSub, Bool.or_eq_true, List.isPrefixOf_iff_prefix,
      containsSub_iff n cs]
    exact List.infix_cons_iff.symm

theorem containsSub_false_mono {n a b : List Char} (hab : a <:+: b)
    (hb : containsSub n b = false) : containsSub n a = false := by
  cases h : containsSub n a with
  | false => rfl
  | true =>
    have h1 : n <:+: b := ((containsSub_iff n a).mp h).trans hab
    have h2 := (containsSub_iff n b).mpr h1
    rw [hb] at h2
    exact absurd h2 (by simp)

theorem met_sub_notmet : "MET".data <:+: "NOT_MET".data :=
  ⟨"NOT_".data, [], by decide⟩

theorem containsSub_notmet_eq_false {u : List Char}
    (hm : containsSub "MET".data u = false) :
    containsSub "NOT_MET".data u = false := by
  cases h : containsSub "NOT_MET".data u with
  | false => rfl
  | true =>
    have h1 : "MET".data <:+: u := met_sub_notmet.trans ((containsSub_iff _ u).mp h)
    have h2 := (containsSub_iff "MET".data u).mpr h1
    rw [hm] at h2
    exact absurd h2 (by simp)

theorem dropWhile_suffix_ex (p : Char → Bool) :
    ∀ l : List Char, ∃ s, s ++ l.dropWhile p = l
  | [] => ⟨[], rfl⟩
  | c :: cs => by
    by_cases hc : p c
    · obtain ⟨s, hs⟩ := dropWhile_suffix_ex p cs
      exact ⟨c :: s, by simp [List.dropWhile_cons, hc, hs]⟩
    · exact ⟨[], by simp [List.dropWhile_cons, hc]⟩

theorem pyStrip_inf (l : List Char) : pyStrip l <:+: l := by
  obtain ⟨s, hs⟩ := dropWhile_suffix_ex isPySpace l
  obtain ⟨u, hu⟩ := dropWhile_suffix_ex isPySpace (l.dropWhile isPySpace).reverse
  refine ⟨s, u.reverse, ?_⟩
  have h2 : l.dropWhile isPySpace
      = ((l.dropWhile isPySpace).reverse.dropWhile isPySpace).reverse ++ u.reverse := by
    have h3 := congrArg List.reverse hu
    simpa using h3.symm
  calc s ++ pyStrip l ++ u.reverse
      = s ++ (((l.dropWhile isPySpace).reverse.dropWhile isPySpace).reverse ++ u.reverse) := by
        simp [pyStrip, List.append_assoc]
    _ = s ++ l.dropWhile isPySpace := by rw [← h2]
    _ = l := hs

theorem inf_map (f : Char → Char) {a b : List Char} (h : a <:+: b) :
    a.map f <:+: b.map f := by
  obtain ⟨s, t, rfl⟩ := h
  exact ⟨s.map f, t.map f, by simp⟩

theorem splitLines_ne_nil : ∀ l : List Char, splitLines l ≠ []
  | [] => by simp [splitLines]
  | c :: cs => by
    by_cases hc : c = '\n'
    · simp [splitLines, hc]
    · cases h : splitLines cs with
      | nil => simp [splitLines, hc, h]
      | cons m ms => simp [splitLines, hc, h]

theorem headD_splitLines_pre : ∀ l : List Char, (splitLines l).headD [] <+: l
  | [] => by simp [splitLines]
  | c :: cs => by
    by_cases hc : c = '\n'
    · simp [splitLines, hc, List.nil_prefix]
    · cases h : splitLines cs with
      | nil => exact absurd h (splitLines_ne_nil cs)
      | cons m ms =>
        have ih := headD_splitLines_pre cs
        rw [h] at ih
        simp only [List.headD_cons] at ih
        obtain ⟨t, ht⟩ := ih
        simp only [splitLines, hc, if_neg hc, h, List.headD_cons]
        exact ⟨t, by simp [ht]⟩

theorem mem_splitLines_inf : ∀ (r : List Char) {l : List Char},
    l ∈ splitLines r → l <:+: r
  | [], l => by
    intro h
    simp [splitLines] at h
    simp [h]
  | c :: cs, l => by
    intro h
    by_cases hc : c = '\n'
    · simp only [splitLines, if_pos hc, List.mem_cons] at h
      rcases h with h | h
      · simp [h]
      · exact (mem_splitLines_inf cs h).trans ⟨[c], [], by simp⟩
    · cases hsp : splitLines cs with
      | nil => exact absurd hsp (splitLines_ne_nil cs)
      | cons m ms =>
        simp only [splitLines, if_neg hc, hsp, List.mem_cons] at h
        rcases h with h | h
        · have hm : m <+: cs := by
            have ih := headD_splitLines_pre cs
            rw [hsp] at ih
            simpa using ih
          obtain ⟨t, ht⟩ := hm
          exact ⟨[], t, by simp [h, ht]⟩
        · have hmem : l ∈ splitLines cs := by rw [hsp]; exact List.mem_cons_of_mem m h
          exact (mem_splitLines_inf cs hmem).trans ⟨[c], [], by simp⟩

theorem lineStatusUpdate_id (line : List Char) (st : Status)
    (hm : containsSub "MET".data (pyUpper line) = false)
    (hf : containsSub "NOT_FOUND".data (pyUpper line) = false) :
    lineStatusUpdate line st = st := by
  simp [lineStatusUpdate, hm, hf, containsSub_notmet_eq_false hm]

theorem scanLines_fst_const : ∀ (ls : List (List Char)) (st : Status) (ct : List Char),
    (∀ l ∈ ls, lineStatusUpdate (pyStrip l) st = st) → (scanLines ls (st, ct)).1 = st
  | [], _, _, _ => rfl
  | l :: ls, st, ct, h => by
    have htail : ∀ m ∈ ls, lineStatusUpdate (pyStrip m) st = st :=
      fun m hm => h m (List.mem_cons_of_mem l hm)
    simp only [scanLines]
    by_cases h1 : isStatusLine (pyStrip l)
    · rw [if_pos h1, h l (List.mem_cons_self l ls)]
      exact scanLines_fst_const ls st ct htail
    · rw [if_neg h1]
      by_cases h2 : isContentLine (pyStrip l)
      · rw [if_pos h2]
        exact scanLines_fst_const ls st _ htail
      · rw [if_neg h2]
        exact scanLines_fst_const ls st ct htail

theorem scanLines_fst_no_status : ∀ (ls : List (List Char)) (st : Status) (ct : List Char),
    (∀ l ∈ ls, isStatusLine (pyStrip l) = false) → (scanLines ls (st, ct)).1 = st
  | [], _, _, _ => rfl
  | l :: ls, st, ct, h => by
    have htail : ∀ m ∈ ls, isStatusLine (pyStrip m) = false :=
      fun m hm => h m (List.mem_cons_of_mem l hm)
    simp only [scanLines, h l (List.mem_cons_self l ls)]
    by_cases h2 : isContentLine (pyStrip l)
    · rw [if_pos h2]
      exact scanLines_fst_no_status ls st _ htail
    · rw [if_neg h2]
      exact scanLines_fst_no_status ls st ct htail

theorem scanLines_snd_no_content : ∀ (ls : List (List Char)) (st : Status) (ct : List Char),
    (∀ l ∈ ls, isContentLine (pyStrip l) = false) → (scanLines ls (st, ct)).2 = ct
  | [], _, _, _ => rfl
  | l :: ls, st, ct, h => by
    have htail : ∀ m ∈ ls, isContentLine (pyStrip m) = false :=
      fun m hm => h m (List.mem_cons_of_mem l hm)
    simp only [scanLines, h l (List.mem_cons_self l ls)]
    by_cases h1 : isStatusLine (pyStrip l)
    · rw [if_pos h1]
      exact scanLines_snd_no_content ls _ ct htail
    · rw [if_neg h1, if_neg (by simp [h l (List.mem_cons_self l ls)])]
      exact scanLines_snd_no_content ls st ct htail

theorem parse_result_status (r : List Char) : (parse_result r).status =
    (if lineScanStatus r = .ERROR then wholeTextStatus (pyStrip r) else lineScanStatus r) := rfl

theorem parse_result_content (r : List Char) : (parse_result r).content =
    (if (scanLines (splitLines (pyStrip r)) (.ERROR, unableMsg)).2 = unableMsg then pyStrip r
     else (scanLines (splitLines (pyStrip r)) (.ERROR, unableMsg)).2) := rfl

theorem wholeTextStatus_eq_ERROR (r : List Char) : wholeTextStatus r = .ERROR ↔
    (containsSub "MET".data (pyUpper r) = false ∧
     containsSub "NOT_FOUND".data (pyUpper r) = false) := by
  constructor
  · intro h
    cases h1 : containsSub "NOT_MET".data (pyUpper r) <;>
      cases h2 : containsSub "NOT_FOUND".data (pyUpper r) <;>
        cases h3 : containsSub "MET".data (pyUpper r) <;>
          simp_all [wholeTextStatus]
  · rintro ⟨hm, hf⟩
    simp [wholeTextStatus, containsSub_notmet_eq_false hm, hf, hm]

theorem parse_status_ERROR_iff (r : List Char) : (parse_result r).status = .ERROR ↔
    (containsSub "MET".data (pyUpper (pyStrip r)) = false ∧
     containsSub "NOT_FOUND".data (pyUpper (pyStrip r)) = false) := by
  rw [parse_result_status]
  constructor
  · intro h
    by_cases hls : lineScanStatus r = .ERROR
    · rw [if_pos hls] at h
      exact (wholeTextStatus_eq_ERROR _).mp h
    · rw [if_neg hls] at h
      exact absurd h hls
  · rintro ⟨hm, hf⟩
    have hup : ∀ l ∈ splitLines (pyStrip r),
        pyUpper (pyStrip l) <:+: pyUpper (pyStrip r) := by
      intro l hl
      exact inf_map _ ((pyStrip_inf l).trans (mem_splitLines_inf (pyStrip r) hl))
    have hls : lineScanStatus r = .ERROR := by
      unfold lineScanStatus
      apply scanLines_fst_const
      intro l hl
      exact lineStatusUpdate_id _ _ (containsSub_false_mono (hup l hl) hm)
        (containsSub_false_mono (hup l hl) hf)
    rw [if_pos hls]
    exact (wholeTextStatus_eq_ERROR _).mpr ⟨hm, hf⟩

theorem afterFirstColon_append : ∀ (pre post : List Char), ':' ∉ pre →
    afterFirstColon (pre ++ ':' :: post) = some post
  | [], post, _ => by simp [afterFirstColon]
  | c :: pre, post, h => by
    have hc : ¬ c = ':' := fun e => h (by simp [e])
    simp only [List.cons_append, afterFirstColon, if_neg hc]
    exact afterFirstColon_append pre post (fun m => h (List.mem_cons_of_mem c m))

theorem evalRules_length (b : Nat → List Char → Except (List Char) (List Char))
    (text : List Char) : ∀ (i : Nat) (rules : List (List Char)),
    (evalRules b text i rules).length = rules.length
  | _, [] => rfl
  | i, r :: rs => by
    simp [evalRules, evalRules_length b text (i + 1) rs]

theorem evalRules_get? (b : Nat → List Char → Except (List Char) (List Char))
    (text : List Char) : ∀ (rules : List (List Char)) (i j : Nat),
    (evalRules b text i rules).get? j
      = (rules.get? j).map
          (fun rule => (ruleKey (i + j), mkReply (b (i + j) (buildPrompt rule text))))
  | [], i, j => by simp [evalRules]
  | r :: rs, i, 0 => by simp [evalRules]
  | r :: rs, i, j + 1 => by
    have e : i + 1 + j = i + (j + 1) := by omega
    have h := evalRules_get? b text rs (i + 1) j
    rw [e] at h
    simpa [evalRules] using h

theorem analyze_some_results (key : List Char)
    (b : Nat → List Char → Except (List Char) (List Char)) (st : ReviewState)
    (hkey : key ≠ []) :
    (analyze_rule_compliance (some key) b st).results = evalRules b st.text 0 st.rules := by
  cases key with
  | nil => exact absurd rfl hkey
  | cons c cs => rfl

/-! ### Claim theorems -/

/-- Claim C1: on a line that begins (case-insensitively) with a STATUS marker,
the parser classifies the status by case-insensitive substring search within
that line, testing `NOT_MET` before `NOT_FOUND` before bare `MET`; in
particular `STATUS: NOT_MET` parses to `NOT_MET` (not `MET`),
`STATUS: NOT_FOUND` to `NOT_FOUND`, and `STATUS: MET` to `MET`. -/
theorem claim1_status_precedence :
    (∀ (line : List Char) (st : Status), isStatusLine line = true →
        containsSub "NOT_MET".data (pyUpper line) = true →
        lineStatusUpdate line st = .NOT_MET) ∧
    (∀ (line : List Char) (st : Status), isStatusLine line = true →
        containsSub "NOT_MET".data (pyUpper line) = false →
        containsSub "NOT_FOUND".data (pyUpper line) = true →
        lineStatusUpdate line st = .NOT_FOUND) ∧
    (∀ (line : List Char) (st : Status), isStatusLine line = true →
        containsSub "NOT_MET".data (pyUpper line) = false →
        containsSub "NOT_FOUND".data (pyUpper line) = false →
        containsSub "MET".data (pyUpper line) = true →
        lineStatusUpdate line st = .MET) ∧
    (parse_result "STATUS: NOT_MET".data).status = .NOT_MET ∧
    (parse_result "STATUS: NOT_FOUND".data).status = .NOT_FOUND ∧
    (parse_result "STATUS: MET".data).status = .MET := by
  refine ⟨?_, ?_, ?_, by decide, by decide, by decide⟩
  · intro line st _ h1
    simp [lineStatusUpdate, h1]
  · intro line st _ h1 h2
    simp [lineStatusUpdate, h1, h2]
  · intro line st _ h1 h2 h3
    simp [lineStatusUpdate, h1, h2, h3]

/-- Witness for C1: the first precedence conjunct evaluated at a concrete
STATUS line containing `NOT_MET`. -/
theorem claim1_witness :
    lineStatusUpdate "STATUS: NOT_MET".data Status.ERROR = Status.NOT_MET :=
  claim1_status_precedence.1 "STATUS: NOT_MET".data Status.ERROR (by decide) (by decide)

/-- Claim C2 (counterexample): on the reply `"STATUS: pending\nMET"` a
STATUS-marked line is present, the line scan establishes no status, and the
parser nevertheless applies the whole-text fallback, returning `MET` instead
of `ERROR` — refuting "when a STATUS-marked line was found, the whole-text
fallback is not applied". -/
theorem claim2_counterexample :
    ((splitLines (pyStrip "STATUS: pending\nMET".data)).any
        (fun l => isStatusLine (pyStrip l))) = true ∧
    lineScanStatus "STATUS: pending\nMET".data = .ERROR ∧
    (parse_result "STATUS: pending\nMET".data).status = .MET ∧
    Status.MET ≠ Status.ERROR := by
  decide

/-- Claim C2 (amended): the whole-text fallback runs exactly when the line
scan left the status at `ERROR` — i.e. when no STATUS-marked line contained
`NOT_MET`, `NOT_FOUND`, or `MET` — which in particular holds whenever no
STATUS-marked line was found; in that case the entire stripped reply is
searched case-insensitively for `NOT_MET`, then `NOT_FOUND`, then `MET`, in
that precedence order, and the first match is adopted; when the line scan
did establish a status, the fallback is not applied. -/
theorem claim2_fallback_amended :
    (∀ r : List Char, lineScanStatus r ≠ .ERROR →
        (parse_result r).status = lineScanStatus r) ∧
    (∀ r : List Char, lineScanStatus r = .ERROR →
        (parse_result r).status = wholeTextStatus (pyStrip r)) ∧
    (∀ r : List Char, (∀ l ∈ splitLines (pyStrip r), isStatusLine (pyStrip l) = false) →
        lineScanStatus r = .ERROR) ∧
    (∀ u : List Char, wholeTextStatus u =
        if containsSub "NOT_MET".data (pyUpper u) then .NOT_MET
        else if containsSub "NOT_FOUND".data (pyUpper u) then .NOT_FOUND
        else if containsSub "MET".data (pyUpper u) then .MET
        else .ERROR) := by
  refine ⟨?_, ?_, ?_, fun u => rfl⟩
  · intro r h
    rw [parse_result_status, if_neg h]
  · intro r h
    rw [parse_result_status, if_pos h]
  · intro r h
    exact scanLines_fst_no_status _ _ _ h

/-- Witness for C2: the no-fallback conjunct evaluated on a reply whose line
scan does establish a status. -/
theorem claim2_witness :
    (parse_result "STATUS: MET".data).status = lineScanStatus "STATUS: MET".data :=
  claim2_fallback_amended.1 "STATUS: MET".data (by decide)

/-- Claim C3 (counterexample): with three rules and a backend failure injected
at the middle one whose failure description is `"rate limit met"`, the
RawReply is synthesized as `"ERROR: rate limit met"` as claimed, but it
parses to a `MET`-status Verdict, not an `ERROR`-status one. -/
theorem claim3_counterexample :
    (analyze_rule_compliance (some "key".data)
        (fun i _ => if i = 1 then Except.error "rate limit met".data
                    else Except.ok "STATUS: MET".data)
        { text := "some text".data, rules := ["a".data, "b".data, "c".data],
          results := [], analysis_complete := false }).results
      = [(ruleKey 0, "STATUS: MET".data),
         (ruleKey 1, "ERROR: rate limit met".data),
         (ruleKey 2, "STATUS: MET".data)] ∧
    (parse_result "ERROR: rate limit met".data).status = .MET ∧
    Status.MET ≠ Status.ERROR := by
  decide

/-- Claim C3 (amended): with a backend credential available, a backend failure
at call index `k` with description `e` synthesizes the RawReply
`"ERROR: " ++ e` at index `k`, does not alter the replies at any other index,
and does not abort the remaining rules; the synthesized reply parses to an
`ERROR`-status Verdict provided it does not contain the substrings `MET` or
`NOT_FOUND` case-insensitively. -/
theorem claim3_isolation_amended (key text e : List Char) (rules : List (List Char))
    (b b2 : Nat → List Char → Except (List Char) (List Char)) (k : Nat)
    (hkey : key ≠ [])
    (hfail : ∀ p, b k p = .error e)
    (hm : containsSub "MET".data (pyUpper ("ERROR: ".data ++ e)) = false)
    (hf : containsSub "NOT_FOUND".data (pyUpper ("ERROR: ".data ++ e)) = false)
    (hagree : ∀ j, j ≠ k → b j = b2 j) :
    (analyze_rule_compliance (some key) b
        { text := text, rules := rules, results := [], analysis_complete := false
        }).results.length = rules.length ∧
    (k < rules.length →
      (analyze_rule_compliance (some key) b
          { text := text, rules := rules, results := [], analysis_complete := false
          }).results.get? k = some (ruleKey k, "ERROR: ".data ++ e)) ∧
    (parse_result ("ERROR: ".data ++ e)).status = .ERROR ∧
    (∀ j, j ≠ k →
      (analyze_rule_compliance (some key) b
          { text := text, rules := rules, results := [], analysis_complete := false
          }).results.get? j
        = (analyze_rule_compliance (some key) b2
            { text := text, rules := rules, results := [], analysis_complete := false
            }).results.get? j) := by
  refine ⟨?_, ?_, ?_, ?_⟩
  · rw [analyze_some_results _ _ _ hkey]
    exact evalRules_length b text 0 rules
  · intro hk
    rw [analyze_some_results _ _ _ hkey, evalRules_get?]
    obtain ⟨rule, hrule⟩ : ∃ rule, rules.get? k = some rule := by
      cases hr : rules.get? k with
      | none =>
        have := List.get?_eq_none.mp hr
        omega
      | some v => exact ⟨v, rfl⟩
    rw [hrule]
    simp [hfail, mkReply]
  · rw [parse_status_ERROR_iff]
    exact ⟨containsSub_false_mono (inf_map _ (pyStrip_inf _)) hm,
           containsSub_false_mono (inf_map _ (pyStrip_inf _)) hf⟩
  · intro j hj
    rw [analyze_some_results _ _ _ hkey, analyze_some_results _ _ _ hkey,
      evalRules_get?, evalRules_get?, Nat.zero_add, hagree j hj]

/-- Witness for C3: the amended theorem applied to a one-rule batch whose
single call fails with description `"boom"`. -/
theorem claim3_witness :
    (parse_result ("ERROR: ".data ++ "boom".data)).status = Status.ERROR :=
  (claim3_isolation_amended "k".data "t".data "boom".data ["a".data]
    (fun _ _ => Except.error "boom".data) (fun _ _ => Except.error "boom".data) 0
    (by decide) (fun _ => rfl) (by decide) (by decide) (fun _ _ => rfl)).2.2.1

/-- Claim C4: with a backend credential available, `analyze_rule_compliance`
returns exactly one RawReply per rule: the results have the same length as
the rule list and the entry at index `i` is keyed `rule_{i+1}` and holds the
reply of backend call `i` on the prompt built from rule `i` — no reordering,
skipping, or collapsing. -/
theorem claim4_alignment (apiKey : Option (List Char))
    (b : Nat → List Char → Except (List Char) (List Char)) (st : ReviewState)
    (h : (apiKey.getD []).isEmpty = false) :
    (analyze_rule_compliance apiKey b st).results.length = st.rules.length ∧
    ∀ i : Nat, (analyze_rule_compliance apiKey b st).results.get? i
      = (st.rules.get? i).map
          (fun rule => (ruleKey i, mkReply (b i (buildPrompt rule st.text)))) := by
  have hres : (analyze_rule_compliance apiKey b st).results
      = evalRules b st.text 0 st.rules := by
    simp [analyze_rule_compliance, h]
  constructor
  · rw [hres]
    exact evalRules_length b st.text 0 st.rules
  · intro i
    rw [hres, evalRules_get?]
    simp

/-- Witness for C4: the alignment theorem applied to a concrete one-rule
state. -/
theorem claim4_witness :
    (analyze_rule_compliance (some "k".data) (fun _ _ => Except.ok "OK".data)
        { text := "t".data, rules := ["r".data], results := [],
          analysis_complete := false }).results.length = 1 :=
  (claim4_alignment (some "k".data) (fun _ _ => Except.ok "OK".data)
    { text := "t".data, rules := ["r".data], results := [],
      analysis_complete := false } (by decide)).1

/-- Claim C5: with no backend credential available (Python-falsy api key),
`analyze_rule_compliance` short-circuits to the single sentinel result
`{"error": "API key not available"}` — one entry, not per-rule replies — and
its output does not depend on the backend at all (zero backend calls). -/
theorem claim5_credential_gating (apiKey : Option (List Char))
    (b : Nat → List Char → Except (List Char) (List Char)) (st : ReviewState)
    (h : (apiKey.getD []).isEmpty = true) :
    analyze_rule_compliance apiKey b st
      = { st with results := [("error".data, "API key not available".data)],
                  analysis_complete := true } ∧
    (analyze_rule_compliance apiKey b st).results.length = 1 ∧
    ∀ b2, analyze_rule_compliance apiKey b st = analyze_rule_compliance apiKey b2 st := by
  refine ⟨?_, ?_, ?_⟩ <;> simp [analyze_rule_compliance, h]

/-- Witness for C5: the gating theorem applied with `apiKey = none`. -/
theorem claim5_witness :
    analyze_rule_compliance none (fun _ _ => Except.ok [])
        { text := [], rules := [], results := [], analysis_complete := false }
      = { text := [], rules := [],
          results := [("error".data, "API key not available".data)],
          analysis_complete := true } :=
  (claim5_credential_gating none (fun _ _ => Except.ok [])
    { text := [], rules := [], results := [], analysis_complete := false } rfl).1

/-- Claim C6: an input with no STATUS- or CONTENT-marked line and none of the
substrings `MET`, `NOT_MET`, `NOT_FOUND` anywhere parses to status `ERROR`
with content equal to the full trimmed input. -/
theorem claim6_graceful_degradation (r : List Char)
    (hline : ∀ l ∈ splitLines (pyStrip r),
        isStatusLine (pyStrip l) = false ∧ isContentLine (pyStrip l) = false)
    (hm : containsSub "MET".data (pyUpper r) = false)
    (_hnm : containsSub "NOT_MET".data (pyUpper r) = false)
    (hnf : containsSub "NOT_FOUND".data (pyUpper r) = false) :
    parse_result r = ⟨.ERROR, pyStrip r⟩ := by
  have hinf : pyUpper (pyStrip r) <:+: pyUpper r := inf_map _ (pyStrip_inf r)
  have h1 : (parse_result r).status = .ERROR :=
    (parse_status_ERROR_iff r).mpr
      ⟨containsSub_false_mono hinf hm, containsSub_false_mono hinf hnf⟩
  have h2 : (parse_result r).content = pyStrip r := by
    rw [parse_result_content,
      scanLines_snd_no_content _ _ _ (fun l hl => (hline l hl).2), if_pos rfl]
  calc parse_result r = ⟨(parse_result r).status, (parse_result r).content⟩ := rfl
    _ = ⟨.ERROR, pyStrip r⟩ := by rw [h1, h2]

/-- Witness for C6: the spec's own example `"This text looks fine overall."`. -/
theorem claim6_witness :
    parse_result "This text looks fine overall.".data
      = ⟨Status.ERROR, pyStrip "This text looks fine overall.".data⟩ :=
  claim6_graceful_degradation "This text looks fine overall.".data
    (by decide) (by decide) (by decide) (by decide)

/-- Claim C7: a line beginning case-insensitively with `STATUS:`, `STATUS `
(space), or `**STATUS` counts as STATUS-marked, so `**STATUS**: MET` and
`STATUS MET` both parse to status `MET`. -/
theorem claim7_marker_variants :
    (∀ line : List Char,
        ("STATUS:".data.isPrefixOf (pyUpper line)
          || "STATUS ".data.isPrefixOf (pyUpper line)
          || "**STATUS".data.isPrefixOf (pyUpper line)) = true →
        isStatusLine line = true) ∧
    isStatusLine "**STATUS**: MET".data = true ∧
    isStatusLine "STATUS MET".data = true ∧
    (parse_result "**STATUS**: MET".data).status = .MET ∧
    (parse_result "STATUS MET".data).status = .MET := by
  refine ⟨?_, by decide, by decide, by decide, by decide⟩
  intro line h
  simp only [Bool.or_eq_true] at h
  simp only [isStatusLine, statusMarkers, List.any_cons, List.any_nil, Bool.or_eq_true,
    Bool.false_eq_true, or_false]
  tauto

/-- Witness for C7: the marker-acceptance conjunct at a lowercase line. -/
theorem claim7_witness : isStatusLine "status: met".data = true :=
  claim7_marker_variants.1 "status: met".data (by decide)

/-- Claim C8: on a CONTENT-marked line the parser takes everything after the
first colon of the line, trimmed, as the content; in particular
`"STATUS: NOT_MET\nCONTENT: paragraph 3 is off-topic"` parses to the Verdict
`(NOT_MET, "paragraph 3 is off-topic")`. -/
theorem claim8_content_extraction :
    (∀ pre post : List Char, ':' ∉ pre →
        splitColonLast (pre ++ ':' :: post) = post) ∧
    (∀ (st : Status) (ct l : List Char) (ls : List (List Char)),
        isStatusLine (pyStrip l) = false → isContentLine (pyStrip l) = true →
        scanLines (l :: ls) (st, ct)
          = scanLines ls (st, pyStrip (splitColonLast (pyStrip l)))) ∧
    parse_result "STATUS: NOT_MET\nCONTENT: paragraph 3 is off-topic".data
      = ⟨.NOT_MET, "paragraph 3 is off-topic".data⟩ := by
  refine ⟨?_, ?_, by decide⟩
  · intro pre post h
    rw [splitColonLast, afterFirstColon_append pre post h]
    rfl
  · intro st ct l ls h1 h2
    simp [scanLines, h1, h2]

/-- Witness for C8: the after-first-colon conjunct at a concrete CONTENT
line. -/
theorem claim8_witness :
    splitColonLast ("CONTENT".data ++ ':' :: " here ".data) = " here ".data :=
  claim8_content_extraction.1 "CONTENT".data " here ".data (by decide)

/-- Claim C9: the parser is a pure total deterministic function — every input
string (the empty string included) yields a Verdict, and equal inputs yield
identical Verdicts. -/
theorem claim9_parser_pure_total :
    (∀ r : List Char, ∃ v : Verdict, parse_result r = v) ∧
    (∀ r1 r2 : List Char, r1 = r2 → parse_result r1 = parse_result r2) ∧
    parse_result "".data = ⟨.ERROR, "".data⟩ := by
  refine ⟨fun r => ⟨parse_result r, rfl⟩, fun r1 r2 h => by rw [h], by decide⟩

/-- Witness for C9: determinism evaluated at a concrete repeated input. -/
theorem claim9_witness : parse_result "abc".data = parse_result "abc".data :=
  claim9_parser_pure_total.2.1 "abc".data "abc".data rfl

/-- Claim C10: status substring matching is not word-bounded — the input
`"The method section is thorough."` has no STATUS-marked line and no
`NOT_MET`/`NOT_FOUND` substring, yet the letters `met` inside the word
`method` make the parser return `MET` rather than `ERROR`. -/
theorem claim10_substring_not_word_bounded :
    ((splitLines (pyStrip "The method section is thorough.".data)).all
        (fun l => !(isStatusLine (pyStrip l)))) = true ∧
    containsSub "NOT_MET".data (pyUpper "The method section is thorough.".data) = false ∧
    containsSub "NOT_FOUND".data (pyUpper "The method section is thorough.".data) = false ∧
    containsSub "MET".data (pyUpper "The method section is thorough.".data) = true ∧
    (parse_result "The method section is thorough.".data).status = .MET ∧
    Status.MET ≠ Status.ERROR := by
  decide

end AIReview
